import Mathlib

/-!
Verification of `srunner/challenge/envs/sensor_interface.py`.

The Python module is embedded shallowly:
* Python dictionaries become association lists over `String` keys, with
  `dictGet` (read) and `dictSet` (assignment `d[k] = v`: overwrite in place,
  otherwise append).
* `SensorInterface` becomes the structure `SIState` holding the three dicts
  `_sensors_objects`, `_data_buffers`, `_timestamps`; the Python `None`
  sentinel stored in `_data_buffers` becomes `Option.none`.
* Methods that `raise` become `Except`-valued functions; a raised exception
  leaves the state unchanged, which `applyOp` makes explicit.
* The numpy calls in the `CallBack` parse methods become pure list
  transforms: `np.reshape` fails (raises `ValueError`) unless the requested
  shape covers the buffer exactly, which `np_reshape` models with `Option`.
* The background polling loops of `HDMapReader.run` and
  `CANBusSensor.read_CAN_Bus` become a fold over an abstract list of loop
  iterations (`Tick`s); each tick records whether a callback was registered
  and whether enough wall-clock time had elapsed, the two conditions the
  loop checks before emitting a measurement.
-/

namespace SRunner

/-- Read access `d[k]` on a Python dict modelled as an association list:
the value at the first matching key, `none` when the key is absent. -/
def dictGet {β : Type} : List (String × β) → String → Option β
  | [], _ => none
  | (k', v) :: rest, k => if k' = k then some v else dictGet rest k

/-- Python dict assignment `d[k] = v`: overwrite the existing binding in
place, otherwise append the new binding at the end (insertion order). -/
def dictSet {β : Type} : List (String × β) → String → β → List (String × β)
  | [], k, v => [(k, v)]
  | (k', v') :: rest, k, v =>
      if k' = k then (k', v) :: rest else (k', v') :: dictSet rest k v

/-- Error kinds raised by `SensorInterface` (both are `ValueError` in the
source, distinguished by their message text). -/
inductive RegistryError where
  /-- Raised by `register_sensor` as "Duplicated sensor tag [tag]". -/
  | duplicatedSensorTag (tag : String)
  /-- Raised by `update_sensor` as "The sensor with tag [tag] has not been created!". -/
  | sensorNotCreated (tag : String)
deriving DecidableEq, Repr

/-- The state of a `SensorInterface` object: its three dictionaries.
`σ` is the type of sensor objects, `α` the type of payloads passed to
`update_sensor` (the dispatcher never passes Python `None` as a payload,
so the `None` sentinel of `_data_buffers` is modelled by `Option.none`). -/
structure SIState (σ α : Type) where
  sensorsObjects : List (String × σ)
  dataBuffers : List (String × Option α)
  timestamps : List (String × Int)
deriving DecidableEq, Repr

/-- Model of `SensorInterface.__init__`: all three dicts start empty. -/
def initState (σ α : Type) : SIState σ α :=
  ⟨[], [], []⟩

/-- The membership test `tag in self._sensors_objects`. -/
def isRegistered {σ α : Type} (s : SIState σ α) (tag : String) : Bool :=
  (dictGet s.sensorsObjects tag).isSome

/-- Model of `SensorInterface.register_sensor`: raise on a duplicate tag,
otherwise create the entry with the `None` payload sentinel and
timestamp `-1`. -/
def register_sensor {σ α : Type} (s : SIState σ α) (tag : String) (sensor : σ) :
    Except RegistryError (SIState σ α) :=
  if isRegistered s tag then
    .error (.duplicatedSensorTag tag)
  else
    .ok ⟨dictSet s.sensorsObjects tag sensor,
         dictSet s.dataBuffers tag none,
         dictSet s.timestamps tag (-1)⟩

/-- Model of `SensorInterface.update_sensor`: raise on an unknown tag,
otherwise store the payload and the timestamp. -/
def update_sensor {σ α : Type} (s : SIState σ α) (tag : String) (data : α) (timestamp : Int) :
    Except RegistryError (SIState σ α) :=
  if isRegistered s tag then
    .ok ⟨s.sensorsObjects,
         dictSet s.dataBuffers tag (some data),
         dictSet s.timestamps tag timestamp⟩
  else
    .error (.sensorNotCreated tag)

/-- Model of `SensorInterface.all_sensors_ready`: false iff some registered
key still holds the `None` sentinel in `_data_buffers`. -/
def all_sensors_ready {σ α : Type} (s : SIState σ α) : Bool :=
  s.sensorsObjects.all fun p =>
    match dictGet s.dataBuffers p.1 with
    | some none => false
    | _ => true

/-- Model of `SensorInterface.get_data`: the snapshot dict, one
`(timestamp, payload)` pair per registered key.  The `deepcopy` of the
source is the identity on immutable values.  A missing key would be a
Python `KeyError`; reachable states keep the three dicts in sync, so the
defaults below are never exercised on reachable states. -/
def get_data {σ α : Type} (s : SIState σ α) : List (String × (Int × Option α)) :=
  s.sensorsObjects.map fun p =>
    (p.1, ((dictGet s.timestamps p.1).getD (-1), (dictGet s.dataBuffers p.1).getD none))

/-- One call made against a `SensorInterface` object. -/
inductive Op (σ α : Type) where
  | register (tag : String) (sensor : σ)
  | update (tag : String) (data : α) (timestamp : Int)
deriving DecidableEq, Repr

/-- Whether a call is an `update_sensor` call. -/
def isUpdateCall {σ α : Type} : Op σ α → Bool
  | .update _ _ _ => true
  | .register _ _ => false

/-- Effect of one call on the registry state: a raised exception
propagates to the caller and leaves the state unchanged. -/
def applyOp {σ α : Type} (s : SIState σ α) : Op σ α → SIState σ α
  | .register tag sensor => ((register_sensor s tag sensor).toOption).getD s
  | .update tag data ts => ((update_sensor s tag data ts).toOption).getD s

/-- The registry state after a sequence of calls, starting from
`__init__`. -/
def runOps {σ α : Type} (ops : List (Op σ α)) : SIState σ α :=
  ops.foldl applyOp (initState σ α)

/-- One step of the per-tag history (a second definition written from the
spec's words, against which the registry is compared): the Boolean records
whether the tag is registered, the option records the
`(timestamp, payload)` pair of the most recent update call for the tag
that completed (calls raising `UnknownTag` do not count; a duplicate
`register` neither registers anew nor clears anything). -/
def histStep {σ α : Type} (tag : String) (st : Bool × Option (Int × α)) :
    Op σ α → Bool × Option (Int × α)
  | .register t _ => (if t = tag then true else st.1, st.2)
  | .update t d ts => if t = tag then (if st.1 then (st.1, some (ts, d)) else st) else st

/-- The per-tag history after a sequence of calls: is the tag registered,
and which `(timestamp, payload)` pair was passed together in its most
recent completed update call (`none` while no update completed). -/
def lastRecorded {σ α : Type} (tag : String) (ops : List (Op σ α)) :
    Bool × Option (Int × α) :=
  ops.foldl (histStep tag) (false, none)

/-- The `(timestamp, data-buffer)` cell a per-tag history predicts:
`(-1, None)` while no update completed, the recorded pair afterwards. -/
def entryOfLast {α : Type} : Option (Int × α) → Int × Option α
  | none => (-1, none)
  | some (ts, d) => (ts, some d)

/-- Relation between a registry state and the per-tag history of `tag`. -/
def TagRel {σ α : Type} (tag : String) (s : SIState σ α) (st : Bool × Option (Int × α)) : Prop :=
  isRegistered s tag = st.1 ∧
  (st.1 = false → st.2 = none) ∧
  (st.1 = true →
    dictGet s.timestamps tag = some (entryOfLast st.2).1 ∧
    dictGet s.dataBuffers tag = some (entryOfLast st.2).2)

/-- Fueled row splitting: the list of `rows` consecutive chunks of `cols`
elements, the shape numpy lays a reshaped flat buffer out in. -/
def splitRows {F : Type} : Nat → Nat → List F → List (List F)
  | 0, _, _ => []
  | rows + 1, cols, l => l.take cols :: splitRows rows cols (l.drop cols)

/-- Model of `np.reshape(buf, (rows, cols))`: raises `ValueError` (here
`none`) unless the new shape covers the buffer exactly. -/
def np_reshape {F : Type} (l : List F) (rows cols : Nat) : Option (List (List F)) :=
  if l.length = rows * cols then some (splitRows rows cols l) else none

/-- Model of `CallBack._parse_lidar_cb`:
`np.reshape(points, (int(points.shape[0] / 3), 3))`, where
`int(n / 3)` is floor division on the float count `n`. -/
def parse_lidar {F : Type} (points : List F) : Option (List (List F)) :=
  np_reshape points (points.length / 3) 3

/-- Model of `CallBack._parse_image_cb`: reshape the flat byte buffer to
`(height, width, 4)`, keep the first three channels (`[:, :, :3]`) and
reverse them (`[:, :, ::-1]`). -/
def parse_image {B : Type} (height width : Nat) (raw : List B) :
    Option (List (List (List B))) :=
  (np_reshape raw height (width * 4)).map fun rows =>
    rows.map fun row => (splitRows width 4 row).map fun px => (px.take 3).reverse

/-- The numpy dtypes the callbacks mention. -/
inductive NPDType where
  | uint8
  | float32
  | float64
deriving DecidableEq, Repr

/-- A numpy vector: its elements plus its declared dtype. -/
structure NPArray (V : Type) where
  data : List V
  dtype : NPDType
deriving DecidableEq, Repr

/-- Model of `CallBack._parse_gnss_cb`:
`np.array([latitude, longitude, altitude], dtype=np.float32)`. -/
def parse_gnss {V : Type} (latitude longitude altitude : V) : NPArray V :=
  ⟨[latitude, longitude, altitude], .float32⟩

/-- One iteration of a polling loop: whether `self._callback` was set,
whether more than `1 / reading_frequency` seconds had elapsed since the
last emission, and what the pull producer (`self.__call__()`) would
return at that moment. -/
structure Tick (D : Type) where
  callbackSet : Bool
  elapsed : Bool
  reading : D
deriving DecidableEq, Repr

/-- A measurement as emitted by `HDMapReader` / `CANBusSensor`: the
payload plus the producer's `frame_number` at emission time. -/
structure Measurement (D : Type) where
  data : D
  frame_number : Nat
deriving DecidableEq, Repr

/-- The polling loops `HDMapReader.run` and `CANBusSensor.read_CAN_Bus`
(identical control flow): on each iteration, if a callback is registered
and the reading period has elapsed, emit a measurement carrying the
current `_frame_number` and increment the counter; otherwise sleep and
retry.  `frame` is the current value of `_frame_number` (0 at
construction). -/
def pollLoop {D : Type} (frame : Nat) : List (Tick D) → List (Measurement D)
  | [] => []
  | t :: rest =>
      if t.callbackSet && t.elapsed then
        ⟨t.reading, frame⟩ :: pollLoop (frame + 1) rest
      else
        pollLoop frame rest

/-- Concrete call sequence used to witness the snapshot claim. -/
def c1ops : List (Op Nat Nat) :=
  [.register "cam" 0, .update "cam" 7 5]

/-- Concrete call sequence used to witness the readiness claim. -/
def c2ops : List (Op Nat Nat) :=
  [.register "cam" 0, .update "cam" 1 0]

/-- Concrete update-only continuation used to witness the readiness
claim. -/
def c2more : List (Op Nat Nat) :=
  [.update "cam" 2 1]

/-- The 2x2 BGRA example buffer of the image-normalization claim. -/
def exImageRaw : List Nat :=
  [10, 20, 30, 255, 40, 50, 60, 255, 70, 80, 90, 255, 100, 110, 120, 255]

/-- A concrete registry state with two registered tags, used to witness
the frame-effect claim. -/
def c10state : SIState Nat Nat :=
  ⟨[("cam", 0), ("gps", 1)], [("cam", some 5), ("gps", none)], [("cam", 3), ("gps", -1)]⟩

/-! Helper lemmas. -/

theorem dictGet_dictSet_self {β : Type} (d : List (String × β)) (k : String) (v : β) :
    dictGet (dictSet d k v) k = some v := by
  induction d with
  | nil => simp [dictGet, dictSet]
  | cons p rest ih =>
      obtain ⟨k', v'⟩ := p
      by_cases h : k' = k
      · simp [dictGet, dictSet, h]
      · simp [dictGet, dictSet, h, ih]

theorem dictGet_dictSet_other {β : Type} (d : List (String × β)) (k k' : String) (v : β)
    (h : k' ≠ k) : dictGet (dictSet d k v) k' = dictGet d k' := by
  have hkk : ¬ k = k' := fun hk => h hk.symm
  induction d with
  | nil => simp [dictGet, dictSet, hkk]
  | cons p rest ih =>
      obtain ⟨k₀, v₀⟩ := p
      by_cases h₀ : k₀ = k
      · subst h₀
        simp [dictGet, dictSet, hkk]
      · simp [dictGet, dictSet, h₀, ih]

theorem dictGet_isSome_iff_mem {β : Type} (d : List (String × β)) (k : String) :
    (dictGet d k).isSome = true ↔ ∃ v, (k, v) ∈ d := by
  induction d with
  | nil => simp [dictGet]
  | cons p rest ih =>
      obtain ⟨k', v'⟩ := p
      by_cases h : k' = k
      · subst h
        simp [dictGet]
      · simp only [dictGet, if_neg h, ih, List.mem_cons]
        constructor
        · rintro ⟨v, hv⟩
          exact ⟨v, Or.inr hv⟩
        · rintro ⟨v, hv | hv⟩
          · exact absurd (congrArg Prod.fst hv).symm h
          · exact ⟨v, hv⟩

theorem applyOp_register_fresh {σ α : Type} (s : SIState σ α) (t : String) (sn : σ)
    (h : isRegistered s t = false) :
    applyOp s (.register t sn) =
      ⟨dictSet s.sensorsObjects t sn,
       dictSet s.dataBuffers t none,
       dictSet s.timestamps t (-1)⟩ := by
  simp [applyOp, register_sensor, h, Except.toOption]

theorem applyOp_register_dup {σ α : Type} (s : SIState σ α) (t : String) (sn : σ)
    (h : isRegistered s t = true) : applyOp s (.register t sn) = s := by
  simp [applyOp, register_sensor, h, Except.toOption]

theorem applyOp_update_known {σ α : Type} (s : SIState σ α) (t : String) (d : α) (ts : Int)
    (h : isRegistered s t = true) :
    applyOp s (.update t d ts) =
      ⟨s.sensorsObjects,
       dictSet s.dataBuffers t (some d),
       dictSet s.timestamps t ts⟩ := by
  simp [applyOp, update_sensor, h, Except.toOption]

theorem applyOp_update_unknown {σ α : Type} (s : SIState σ α) (t : String) (d : α) (ts : Int)
    (h : isRegistered s t = false) : applyOp s (.update t d ts) = s := by
  simp [applyOp, update_sensor, h, Except.toOption]

theorem tagRel_step {σ α : Type} (tag : String) (s : SIState σ α)
    (st : Bool × Option (Int × α)) (op : Op σ α) (h : TagRel tag s st) :
    TagRel tag (applyOp s op) (histStep tag st op) := by
  obtain ⟨hreg, hunset, hset⟩ := h
  cases op with
  | register t sensor =>
      by_cases ht : t = tag
      · subst ht
        cases hr : isRegistered s t with
        | true =>
            -- duplicate registration raises; nothing changes
            have hst : st.1 = true := hreg ▸ hr
            rw [applyOp_register_dup s t sensor hr]
            refine ⟨by simp [histStep, hr], by simp [histStep], ?_⟩
            intro _
            simpa [histStep] using hset hst
        | false =>
            -- fresh registration creates the sentinel entry
            have hst : st.1 = false := hreg ▸ hr
            have h2 : st.2 = none := hunset hst
            rw [applyOp_register_fresh s t sensor hr]
            refine ⟨?_, by simp [histStep], ?_⟩
            · simp [isRegistered, histStep, dictGet_dictSet_self]
            · intro _
              simp [histStep, h2, entryOfLast, dictGet_dictSet_self]
      · -- a register call for a different tag never touches this tag
        have ht' : tag ≠ t := fun hh => ht hh.symm
        cases hr : isRegistered s t with
        | true =>
            rw [applyOp_register_dup s t sensor hr]
            exact ⟨by simpa [histStep, ht] using hreg,
                   by simpa [histStep, ht] using hunset,
                   by simpa [histStep, ht] using hset⟩
        | false =>
            rw [applyOp_register_fresh s t sensor hr]
            refine ⟨?_, by simpa [histStep, ht] using hunset, ?_⟩
            · simpa [isRegistered, histStep, ht,
                     dictGet_dictSet_other _ _ _ _ ht'] using hreg
            · intro h1
              have := hset (by simpa [histStep, ht] using h1)
              simpa [histStep, ht, dictGet_dictSet_other _ _ _ _ ht'] using this
  | update t d ts =>
      by_cases ht : t = tag
      · subst ht
        cases hr : isRegistered s t with
        | true =>
            -- completed update: both cells replaced together
            have hst : st.1 = true := hreg ▸ hr
            rw [applyOp_update_known s t d ts hr]
            refine ⟨?_, by simp [histStep, hst], ?_⟩
            · simpa [isRegistered, histStep, hst] using hreg
            · intro _
              simp [histStep, hst, entryOfLast, dictGet_dictSet_self]
        | false =>
            -- update before registration raises; nothing changes
            have hst : st.1 = false := hreg ▸ hr
            rw [applyOp_update_unknown s t d ts hr]
            refine ⟨by simpa [histStep, hst] using hreg,
                    by simpa [histStep, hst] using hunset, ?_⟩
            intro h1
            simp [histStep, hst] at h1
      · -- an update for a different tag never touches this tag
        have ht' : tag ≠ t := fun hh => ht hh.symm
        cases hr : isRegistered s t with
        | true =>
            rw [applyOp_update_known s t d ts hr]
            refine ⟨by simpa [isRegistered, histStep, ht] using hreg,
                    by simpa [histStep, ht] using hunset, ?_⟩
            intro h1
            have := hset (by simpa [histStep, ht] using h1)
            simpa [histStep, ht, dictGet_dictSet_other _ _ _ _ ht'] using this
        | false =>
            rw [applyOp_update_unknown s t d ts hr]
            exact ⟨by simpa [histStep, ht] using hreg,
                   by simpa [histStep, ht] using hunset,
                   by simpa [histStep, ht] using hset⟩

theorem tagRel_fold {σ α : Type} (tag : String) (ops : List (Op σ α)) :
    ∀ (s : SIState σ α) (st : Bool × Option (Int × α)), TagRel tag s st →
      TagRel tag (ops.foldl applyOp s) (ops.foldl (histStep tag) st) := by
  induction ops with
  | nil => intro s st h; exact h
  | cons op rest ih =>
      intro s st h
      exact ih _ _ (tagRel_step tag s st op h)

theorem tagRel_runOps {σ α : Type} (tag : String) (ops : List (Op σ α)) :
    TagRel tag (runOps ops) (lastRecorded tag ops) := by
  refine tagRel_fold tag ops (initState σ α) (false, none) ?_
  refine ⟨?_, fun _ => rfl, ?_⟩
  · simp [isRegistered, initState, dictGet]
  · intro h; cases h

theorem dictGet_map_entry {σ γ : Type} (l : List (String × σ)) (f : String → γ) (tag : String) :
    dictGet (l.map fun p => (p.1, f p.1)) tag = (dictGet l tag).map fun _ => f tag := by
  induction l with
  | nil => simp [dictGet]
  | cons p rest ih =>
      obtain ⟨k, v⟩ := p
      by_cases h : k = tag
      · subst h
        simp [dictGet]
      · simp [dictGet, h, ih]

theorem dictGet_get_data {σ α : Type} (s : SIState σ α) (tag : String) :
    dictGet (get_data s) tag =
      (dictGet s.sensorsObjects tag).map fun _ =>
        ((dictGet s.timestamps tag).getD (-1), (dictGet s.dataBuffers tag).getD none) := by
  exact dictGet_map_entry s.sensorsObjects
    (fun k => ((dictGet s.timestamps k).getD (-1), (dictGet s.dataBuffers k).getD none)) tag

/-- The snapshot cell of a registered tag is exactly what the per-tag
history predicts. -/
theorem snapshot_entry {σ α : Type} (ops : List (Op σ α)) (tag : String)
    (hr : isRegistered (runOps ops) tag = true) :
    dictGet (get_data (runOps ops)) tag = some (entryOfLast (lastRecorded tag ops).2) := by
  obtain ⟨hreg, _, hset⟩ := tagRel_runOps tag ops
  have hst : (lastRecorded tag ops).1 = true := hreg ▸ hr
  obtain ⟨ht, hb⟩ := hset hst
  have hr' : (dictGet (runOps ops).sensorsObjects tag).isSome = true := by
    simpa [isRegistered] using hr
  rcases Option.isSome_iff_exists.mp hr' with ⟨v, hv⟩
  rw [dictGet_get_data, hv, Option.map_some', ht, hb]
  simp

/-- A recorded pair always comes from an update call in the history. -/
theorem lastRecorded_mem {σ α : Type} (tag : String) (ops : List (Op σ α)) :
    ∀ (st : Bool × Option (Int × α)) (ts : Int) (d : α),
      (ops.foldl (histStep tag) st).2 = some (ts, d) →
      st.2 = some (ts, d) ∨ Op.update tag d ts ∈ ops := by
  induction ops with
  | nil => intro st ts d h; exact Or.inl h
  | cons op rest ih =>
      intro st ts d h
      rcases ih _ ts d h with h' | h'
      · cases op with
        | register t sn => exact Or.inl (by simpa [histStep] using h')
        | update t d' ts' =>
            by_cases ht : t = tag
            · subst ht
              cases hb : st.1 with
              | false => exact Or.inl (by simpa [histStep, hb] using h')
              | true =>
                  have hpair : ts' = ts ∧ d' = d := by simpa [histStep, hb] using h'
                  rw [← hpair.1, ← hpair.2]
                  exact Or.inr (List.mem_cons_self _ _)
            · exact Or.inl (by simpa [histStep, ht] using h')
      · exact Or.inr (List.mem_cons_of_mem _ h')

/-- A stretch of history without updates for the tag leaves its recorded
pair unchanged. -/
theorem foldl_histStep_no_update {σ α : Type} (tag : String) (ops : List (Op σ α)) :
    ∀ st : Bool × Option (Int × α), (∀ (d : α) (ts : Int), Op.update tag d ts ∉ ops) →
      (ops.foldl (histStep tag) st).2 = st.2 := by
  induction ops with
  | nil => intro st _; rfl
  | cons op rest ih =>
      intro st hno
      have hrest : ∀ (d : α) (ts : Int), Op.update tag d ts ∉ rest :=
        fun d ts h => hno d ts (List.mem_cons_of_mem _ h)
      rw [List.foldl_cons, ih _ hrest]
      cases op with
      | register t sn => simp [histStep]
      | update t d ts =>
          have ht : ¬ t = tag := fun h => hno d ts (by rw [h]; exact List.mem_cons_self _ _)
          simp [histStep, ht]

/-- Registration is permanent in the history. -/
theorem foldl_histStep_fst_true {σ α : Type} (tag : String) (ops : List (Op σ α)) :
    ∀ st : Bool × Option (Int × α), st.1 = true →
      (ops.foldl (histStep tag) st).1 = true := by
  induction ops with
  | nil => intro st h; exact h
  | cons op rest ih =>
      intro st h
      rw [List.foldl_cons]
      apply ih
      cases op with
      | register t sn => simp [histStep, h]
      | update t d ts =>
          by_cases ht : t = tag
          · simp [histStep, ht, h]
          · simp [histStep, ht, h]

/-- Readiness unfolded: no registered key may hold the `None` sentinel. -/
theorem ready_iff {σ α : Type} (s : SIState σ α) :
    all_sensors_ready s = true ↔
      ∀ tag v, (tag, v) ∈ s.sensorsObjects → dictGet s.dataBuffers tag ≠ some none := by
  unfold all_sensors_ready
  rw [List.all_eq_true]
  constructor
  · intro h tag v hv hcontra
    have := h (tag, v) hv
    rw [hcontra] at this
    simp at this
  · intro h p hp
    obtain ⟨tag, v⟩ := p
    cases hx : dictGet s.dataBuffers tag with
    | none => simp [hx]
    | some o =>
        cases o with
        | none => exact absurd hx (h tag v hp)
        | some d => simp [hx]

/-- A completed update call never turns readiness off. -/
theorem ready_applyOp_update {σ α : Type} (s : SIState σ α) (t : String) (d : α) (ts : Int)
    (h : all_sensors_ready s = true) :
    all_sensors_ready (applyOp s (.update t d ts)) = true := by
  cases hr : isRegistered s t with
  | false => rw [applyOp_update_unknown s t d ts hr]; exact h
  | true =>
      rw [applyOp_update_known s t d ts hr]
      rw [ready_iff] at h ⊢
      intro tag v hv hcontra
      by_cases htag : tag = t
      · subst htag
        rw [dictGet_dictSet_self] at hcontra
        simp at hcontra
      · rw [dictGet_dictSet_other _ _ _ _ htag] at hcontra
        exact h tag v hv hcontra

theorem ready_foldl_updates {σ α : Type} (more : List (Op σ α)) :
    ∀ s : SIState σ α, more.all isUpdateCall = true →
      all_sensors_ready s = true → all_sensors_ready (more.foldl applyOp s) = true := by
  induction more with
  | nil => intro s _ h; exact h
  | cons op rest ih =>
      intro s hmore h
      rw [List.all_cons, Bool.and_eq_true] at hmore
      rw [List.foldl_cons]
      refine ih _ hmore.2 ?_
      cases op with
      | register t sn => simp [isUpdateCall] at hmore
      | update t d ts => exact ready_applyOp_update s t d ts h

theorem splitRows_length {F : Type} (rows cols : Nat) (l : List F) :
    (splitRows rows cols l).length = rows := by
  induction rows generalizing l with
  | zero => rfl
  | succ r ih => simp [splitRows, ih]

theorem splitRows_mem_length {F : Type} (rows cols : Nat) (l : List F)
    (h : l.length = rows * cols) :
    ∀ r ∈ splitRows rows cols l, r.length = cols := by
  induction rows generalizing l with
  | zero => intro r hr; simp [splitRows] at hr
  | succ n ih =>
      intro r hr
      rw [splitRows] at hr
      rcases List.mem_cons.mp hr with rfl | hr'
      · rw [List.length_take]
        have hc : cols ≤ l.length := by
          rw [h, Nat.succ_mul]; exact Nat.le_add_left _ _
        omega
      · refine ih (l.drop cols) ?_ r hr'
        rw [List.length_drop, h, Nat.succ_mul]
        omega

theorem splitRows_join {F : Type} (rows cols : Nat) (l : List F)
    (h : l.length = rows * cols) : (splitRows rows cols l).flatten = l := by
  induction rows generalizing l with
  | zero =>
      have : l = [] := List.eq_nil_of_length_eq_zero (by simpa using h)
      simp [splitRows, this]
  | succ n ih =>
      rw [splitRows, List.flatten_cons,
          ih (l.drop cols) (by rw [List.length_drop, h, Nat.succ_mul]; omega)]
      exact List.take_append_drop cols l

theorem splitRows_get {F : Type} (rows cols : Nat) (l : List F) (i : Nat)
    (h : l.length = rows * cols) (hi : i < rows) :
    (splitRows rows cols l).get? i = some ((l.drop (i * cols)).take cols) := by
  induction rows generalizing l i with
  | zero => omega
  | succ n ih =>
      cases i with
      | zero => simp [splitRows]
      | succ i' =>
          have hlen : (l.drop cols).length = n * cols := by
            rw [List.length_drop, h, Nat.succ_mul]; omega
          have hi' : i' < n := by omega
          have hidx : cols + i' * cols = (i' + 1) * cols := by
            rw [Nat.succ_mul, Nat.add_comm]
          rw [splitRows, List.get?_cons_succ, ih (l.drop cols) i' hlen hi',
              List.drop_drop, hidx]

/-- Emitted frame numbers form the contiguous run starting at the
counter's current value. -/
theorem pollLoop_frames {D : Type} (ticks : List (Tick D)) :
    ∀ frame, (pollLoop frame ticks).map Measurement.frame_number =
      List.range' frame (pollLoop frame ticks).length := by
  induction ticks with
  | nil => intro frame; rfl
  | cons t rest ih =>
      intro frame
      by_cases h : t.callbackSet && t.elapsed
      · simp [pollLoop, h, ih, List.range'_succ]
      · simp [pollLoop, h, ih]

/-! Claim theorems. -/

/-- C1: for every sequence of register/update calls and every registered
tag, the snapshot `get_data` returns for that tag either the initial
absent state (`(-1, None)`, when the history records no completed update)
or exactly the `(timestamp, payload)` pair passed together in the single
most recent completed update call for that tag; in particular, after a
split `ops = l₁ ++ update :: l₂` where the update completed and `l₂` has
no further update for the tag, the snapshot shows exactly that update's
pair — never a mix of fields from two calls, never an older update. -/
theorem c1_snapshot_consistency {σ α : Type} (ops : List (Op σ α)) (tag : String) :
    (isRegistered (runOps ops) tag = true →
      dictGet (get_data (runOps ops)) tag = some (entryOfLast (lastRecorded tag ops).2) ∧
      ∀ (ts : Int) (d : α), (lastRecorded tag ops).2 = some (ts, d) →
        Op.update tag d ts ∈ ops) ∧
    (∀ (l₁ : List (Op σ α)) (d : α) (ts : Int) (l₂ : List (Op σ α)),
      ops = l₁ ++ Op.update tag d ts :: l₂ →
      isRegistered (runOps l₁) tag = true →
      (∀ (d' : α) (ts' : Int), Op.update tag d' ts' ∉ l₂) →
      dictGet (get_data (runOps ops)) tag = some (ts, some d)) := by
  constructor
  · intro hr
    refine ⟨snapshot_entry ops tag hr, ?_⟩
    intro ts d hl
    have hl' : (ops.foldl (histStep tag) (false, none)).2 = some (ts, d) := hl
    rcases lastRecorded_mem tag ops (false, none) ts d hl' with h | h
    · simp at h
    · exact h
  · intro l₁ d ts l₂ hops hreg1 hno
    subst hops
    have hsplit : lastRecorded tag (l₁ ++ Op.update tag d ts :: l₂) =
        l₂.foldl (histStep tag) (histStep tag (lastRecorded tag l₁) (Op.update tag d ts : Op σ α)) := by
      simp [lastRecorded, List.foldl_append]
    have h1 : (lastRecorded tag l₁).1 = true :=
      ((tagRel_runOps tag l₁).1) ▸ hreg1
    have hstep : histStep tag (lastRecorded tag l₁) (Op.update tag d ts : Op σ α) =
        ((lastRecorded tag l₁).1, some (ts, d)) := by
      simp [histStep, h1]
    have hsnd : (lastRecorded tag (l₁ ++ Op.update tag d ts :: l₂)).2 = some (ts, d) := by
      rw [hsplit, hstep]
      exact foldl_histStep_no_update tag l₂ _ hno
    have hfst : (lastRecorded tag (l₁ ++ Op.update tag d ts :: l₂)).1 = true := by
      rw [hsplit, hstep]
      exact foldl_histStep_fst_true tag l₂ _ h1
    have hrB : isRegistered (runOps (l₁ ++ Op.update tag d ts :: l₂)) tag = true := by
      rw [(tagRel_runOps tag (l₁ ++ Op.update tag d ts :: l₂)).1]
      exact hfst
    rw [snapshot_entry _ tag hrB, hsnd]
    rfl

/-- C1 witness: after registering "cam" and updating it with payload 7 at
timestamp 5, the snapshot cell for "cam" is the recorded pair. -/
theorem c1_snapshot_consistency_witness :
    isRegistered (runOps c1ops) "cam" = true ∧
    (dictGet (get_data (runOps c1ops)) "cam" =
        some (entryOfLast (lastRecorded "cam" c1ops).2) ∧
      ∀ (ts : Int) (d : Nat), (lastRecorded "cam" c1ops).2 = some (ts, d) →
        Op.update "cam" d ts ∈ c1ops) :=
  ⟨by decide, (c1_snapshot_consistency c1ops "cam").1 (by decide)⟩

/-- C2: `all_sensors_ready` is true iff every registered tag's history
records at least one completed update (so it is false while some
registered tag was never updated), and once true it stays true under any
further sequence of update calls. -/
theorem c2_readiness {σ α : Type} (ops more : List (Op σ α))
    (hmore : more.all isUpdateCall = true) :
    (all_sensors_ready (runOps ops) = true ↔
      ∀ tag, isRegistered (runOps ops) tag = true →
        ((lastRecorded tag ops).2).isSome = true) ∧
    (all_sensors_ready (runOps ops) = true →
      all_sensors_ready (runOps (ops ++ more)) = true) := by
  constructor
  · constructor
    · intro h tag hr
      obtain ⟨hreg, _, hset⟩ := tagRel_runOps tag ops
      have hst : (lastRecorded tag ops).1 = true := hreg ▸ hr
      obtain ⟨_, hb⟩ := hset hst
      cases h2 : (lastRecorded tag ops).2 with
      | some p => rfl
      | none =>
          exfalso
          rw [h2] at hb
          have hmem : ∃ v, (tag, v) ∈ (runOps ops).sensorsObjects :=
            (dictGet_isSome_iff_mem _ _).mp (by simpa [isRegistered] using hr)
          rcases hmem with ⟨v, hv⟩
          exact (ready_iff (runOps ops)).mp h tag v hv hb
    · intro h
      rw [ready_iff]
      intro tag v hv hcontra
      have hr : isRegistered (runOps ops) tag = true := by
        simp only [isRegistered]
        exact (dictGet_isSome_iff_mem _ _).mpr ⟨v, hv⟩
      obtain ⟨hreg, _, hset⟩ := tagRel_runOps tag ops
      have hst : (lastRecorded tag ops).1 = true := hreg ▸ hr
      obtain ⟨_, hb⟩ := hset hst
      have hsome := h tag hr
      cases h2 : (lastRecorded tag ops).2 with
      | none => rw [h2] at hsome; simp at hsome
      | some p =>
          rw [h2] at hb
          rw [hb] at hcontra
          obtain ⟨ts, d⟩ := p
          simp [entryOfLast] at hcontra
  · intro h
    have : runOps (ops ++ more) = more.foldl applyOp (runOps ops) := by
      simp [runOps, List.foldl_append]
    rw [this]
    exact ready_foldl_updates more (runOps ops) hmore h

/-- C2 witness: with "cam" registered and updated, readiness is true,
equivalent to the history condition, and survives one more update. -/
theorem c2_readiness_witness :
    c2more.all isUpdateCall = true ∧
    ((all_sensors_ready (runOps c2ops) = true ↔
      ∀ tag, isRegistered (runOps c2ops) tag = true →
        ((lastRecorded tag c2ops).2).isSome = true) ∧
    (all_sensors_ready (runOps c2ops) = true →
      all_sensors_ready (runOps (c2ops ++ c2more)) = true)) :=
  ⟨by decide, c2_readiness c2ops c2more (by decide)⟩

/-- C3 counterexample: a 10-float buffer does not yield 3 rows with the
trailing float dropped; `np.reshape(points, (3, 3))` raises `ValueError`
(`none` in the model), so the parse produces no rows at all. -/
theorem c3_counterexample :
    parse_lidar (List.range 10) = none ∧
    parse_lidar (List.range 10) ≠ some [[0, 1, 2], [3, 4, 5], [6, 7, 8]] := by
  constructor
  · rfl
  · intro h
    cases h

/-- C3 (amended): when the float count is divisible by 3, the parse
yields `length / 3` rows of 3 floats each whose concatenation is the
input (so a 9-float buffer gives exactly 3 rows in input order); when the
count is not divisible by 3, the reshape raises and no rows are produced
— nothing is silently dropped. -/
theorem c3_lidar_rows {F : Type} (points : List F) :
    (points.length % 3 = 0 →
      ∃ rows, parse_lidar points = some rows ∧
        rows.length = points.length / 3 ∧
        (∀ r ∈ rows, r.length = 3) ∧
        rows.flatten = points) ∧
    (points.length % 3 ≠ 0 → parse_lidar points = none) := by
  constructor
  · intro hmod
    have hlen : points.length = points.length / 3 * 3 := by omega
    refine ⟨splitRows (points.length / 3) 3 points, ?_, ?_, ?_, ?_⟩
    · unfold parse_lidar np_reshape
      rw [if_pos hlen]
    · exact splitRows_length _ _ _
    · exact splitRows_mem_length _ _ _ hlen
    · exact splitRows_join _ _ _ hlen
  · intro hmod
    have hlen : points.length ≠ points.length / 3 * 3 := by omega
    unfold parse_lidar np_reshape
    rw [if_neg hlen]

/-- C3 witness: a 9-float buffer yields exactly 3 rows of 3, in input
order. -/
theorem c3_lidar_rows_witness :
    (List.range 9).length % 3 = 0 ∧
    ∃ rows, parse_lidar (List.range 9) = some rows ∧
      rows.length = (List.range 9).length / 3 ∧
      (∀ r ∈ rows, r.length = 3) ∧
      rows.flatten = List.range 9 :=
  ⟨by decide, (c3_lidar_rows (List.range 9)).1 (by decide)⟩

/-- C4: the image callback turns a flat row-major BGRA byte buffer of
declared width and height into height rows of width RGB pixels, each
pixel obtained by dropping the 4th channel of the corresponding input
pixel and reversing the remaining three; on the claim's concrete 2x2
buffer it produces exactly the claimed RGB array. -/
theorem c4_image_rgb :
    (parse_image 2 2 exImageRaw =
      some [[[30, 20, 10], [60, 50, 40]], [[90, 80, 70], [120, 110, 100]]]) ∧
    ∀ (B : Type) (height width : Nat) (raw : List B),
      raw.length = height * (width * 4) →
      ∃ img, parse_image height width raw = some img ∧
        img.length = height ∧
        (∀ row ∈ img, row.length = width) ∧
        ∀ i j, i < height → j < width →
          (img.get? i).bind (fun row => row.get? j) =
            some (((raw.drop ((i * width + j) * 4)).take 3).reverse) := by
  constructor
  · rfl
  · intro B height width raw h
    refine ⟨(splitRows height (width * 4) raw).map
        (fun row => (splitRows width 4 row).map fun px => (px.take 3).reverse),
        ?_, ?_, ?_, ?_⟩
    · unfold parse_image np_reshape
      rw [if_pos h]
      rfl
    · rw [List.length_map, splitRows_length]
    · intro row hrow
      rcases List.mem_map.mp hrow with ⟨row0, _, rfl⟩
      rw [List.length_map, splitRows_length]
    · intro i j hi hj
      have houter := splitRows_get height (width * 4) raw i h hi
      rw [List.get?_map, houter, Option.map_some', Option.some_bind]
      have hrowlen : ((raw.drop (i * (width * 4))).take (width * 4)).length = width * 4 := by
        rw [List.length_take, List.length_drop, h]
        have h1 : (i + 1) * (width * 4) ≤ height * (width * 4) :=
          Nat.mul_le_mul_right _ hi
        rw [Nat.succ_mul] at h1
        omega
      have hinner := splitRows_get width 4
        ((raw.drop (i * (width * 4))).take (width * 4)) j hrowlen hj
      rw [List.get?_map, hinner, Option.map_some']
      have h2 : (j + 1) * 4 ≤ width * 4 := Nat.mul_le_mul_right _ hj
      rw [Nat.succ_mul] at h2
      have hmin : min 3 4 = 3 := by omega
      have hmin2 : min 3 (width * 4 - j * 4) = 3 := by omega
      have hidx : i * (width * 4) + j * 4 = (i * width + j) * 4 := by ring
      rw [List.take_take, hmin, List.drop_take, List.drop_drop, List.take_take,
          hmin2, hidx]

/-- C4 witness: the general theorem applied to the claim's 2x2 BGRA
buffer. -/
theorem c4_image_rgb_witness :
    exImageRaw.length = 2 * (2 * 4) ∧
    ∃ img, parse_image 2 2 exImageRaw = some img ∧
      img.length = 2 ∧
      (∀ row ∈ img, row.length = 2) ∧
      ∀ i j, i < 2 → j < 2 →
        (img.get? i).bind (fun row => row.get? j) =
          some (((exImageRaw.drop ((i * 2 + j) * 4)).take 3).reverse) :=
  ⟨by decide, c4_image_rgb.2 Nat 2 2 exImageRaw (by decide)⟩

/-- C5: registering an already-present tag raises the duplicate-tag
`ValueError` and leaves the registry — in particular the tag's stored
timestamp and payload — unchanged. -/
theorem c5_duplicate_register {σ α : Type} (s : SIState σ α) (tag : String) (sensor : σ)
    (h : isRegistered s tag = true) :
    register_sensor (α := α) s tag sensor = .error (.duplicatedSensorTag tag) ∧
    applyOp s (.register tag sensor) = s := by
  constructor
  · simp [register_sensor, h]
  · exact applyOp_register_dup s tag sensor h

/-- C5 witness: re-registering "cam" on a state that has it fails and
changes nothing. -/
theorem c5_duplicate_register_witness :
    isRegistered c10state "cam" = true ∧
    (register_sensor c10state "cam" 9 = .error (.duplicatedSensorTag "cam") ∧
      applyOp c10state (.register "cam" 9) = c10state) :=
  ⟨by decide, c5_duplicate_register c10state "cam" 9 (by decide)⟩

/-- C6: updating a tag that was never registered raises the unknown-tag
`ValueError`, creates no implicit entry, and leaves the whole registry
state unchanged. -/
theorem c6_unknown_update {σ α : Type} (s : SIState σ α) (tag : String) (d : α) (ts : Int)
    (h : isRegistered s tag = false) :
    update_sensor s tag d ts = .error (.sensorNotCreated tag) ∧
    applyOp s (.update tag d ts) = s := by
  constructor
  · simp [update_sensor, h]
  · exact applyOp_update_unknown s tag d ts h

/-- C6 witness: updating the unregistered tag "imu" on the fresh registry
fails and changes nothing. -/
theorem c6_unknown_update_witness :
    isRegistered (initState Nat Nat) "imu" = false ∧
    (update_sensor (initState Nat Nat) "imu" 3 7 = .error (.sensorNotCreated "imu") ∧
      applyOp (initState Nat Nat) (.update "imu" 3 7) = initState Nat Nat) :=
  ⟨by decide, c6_unknown_update (initState Nat Nat) "imu" 3 7 (by decide)⟩

/-- C7: the stream of measurements a polling loop emits carries frame
numbers exactly `0, 1, 2, ...` in emission order — no gaps, no repeats —
whatever the callback-registration and timing history of the loop. -/
theorem c7_poller_sequence {D : Type} (ticks : List (Tick D)) :
    (pollLoop 0 ticks).map Measurement.frame_number =
      List.range (pollLoop 0 ticks).length := by
  rw [pollLoop_frames, List.range_eq_range']

/-- C8 counterexample: the GNSS callback builds its 3-vector with
`dtype=np.float32`, not float64 as claimed. -/
theorem c8_counterexample :
    (parse_gnss (1 : Int) 2 3).dtype = NPDType.float32 ∧
    (parse_gnss (1 : Int) 2 3).dtype ≠ NPDType.float64 := by
  decide

/-- C8 (amended): the GNSS callback produces the fixed 3-element vector
`[latitude, longitude, altitude]`, in that order, declared as float32
(single precision), not float64. -/
theorem c8_gnss_vector {V : Type} (latitude longitude altitude : V) :
    (parse_gnss latitude longitude altitude).data = [latitude, longitude, altitude] ∧
    (parse_gnss latitude longitude altitude).dtype = NPDType.float32 :=
  ⟨rfl, rfl⟩

/-- C9: on a registry with zero registered tags — in particular right
after construction — `all_sensors_ready` is vacuously true. -/
theorem c9_empty_ready {σ α : Type} (s : SIState σ α)
    (h : s.sensorsObjects = []) : all_sensors_ready s = true := by
  simp [all_sensors_ready, h]

/-- C9 witness: the freshly constructed registry reports ready. -/
theorem c9_empty_ready_witness :
    (initState Nat Nat).sensorsObjects = [] ∧
    all_sensors_ready (initState Nat Nat) = true :=
  ⟨rfl, c9_empty_ready (initState Nat Nat) rfl⟩

/-- C10: a successful `update_sensor` for tag A leaves the stored sensor
object, payload and timestamp of every other tag B unchanged, and a
successful `register_sensor` for a new tag likewise leaves every other
tag's entries unchanged. -/
theorem c10_frame {σ α : Type} (s s' : SIState σ α) (tagA tagB : String)
    (d : α) (ts : Int) (sensor : σ) (hB : tagB ≠ tagA) :
    (update_sensor s tagA d ts = .ok s' →
      dictGet s'.sensorsObjects tagB = dictGet s.sensorsObjects tagB ∧
      dictGet s'.dataBuffers tagB = dictGet s.dataBuffers tagB ∧
      dictGet s'.timestamps tagB = dictGet s.timestamps tagB) ∧
    (register_sensor s tagA sensor = .ok s' →
      dictGet s'.sensorsObjects tagB = dictGet s.sensorsObjects tagB ∧
      dictGet s'.dataBuffers tagB = dictGet s.dataBuffers tagB ∧
      dictGet s'.timestamps tagB = dictGet s.timestamps tagB) := by
  constructor
  · intro hup
    unfold update_sensor at hup
    by_cases hr : isRegistered s tagA
    · rw [if_pos hr] at hup
      injection hup with hs
      subst hs
      exact ⟨rfl, dictGet_dictSet_other _ _ _ _ hB, dictGet_dictSet_other _ _ _ _ hB⟩
    · rw [if_neg hr] at hup
      cases hup
  · intro hreg
    unfold register_sensor at hreg
    by_cases hr : isRegistered s tagA
    · rw [if_pos hr] at hreg
      cases hreg
    · rw [if_neg hr] at hreg
      injection hreg with hs
      subst hs
      exact ⟨dictGet_dictSet_other _ _ _ _ hB, dictGet_dictSet_other _ _ _ _ hB,
             dictGet_dictSet_other _ _ _ _ hB⟩

/-- C10 witness: updating "cam" on the two-tag state leaves the "gps"
entries untouched (the register part holds vacuously at this state and
is exercised through the same theorem instance). -/
theorem c10_frame_witness :
    "gps" ≠ "cam" ∧
    ((update_sensor c10state "cam" 9 4 = .ok (applyOp c10state (.update "cam" 9 4)) →
      dictGet (applyOp c10state (.update "cam" 9 4)).sensorsObjects "gps" =
          dictGet c10state.sensorsObjects "gps" ∧
      dictGet (applyOp c10state (.update "cam" 9 4)).dataBuffers "gps" =
          dictGet c10state.dataBuffers "gps" ∧
      dictGet (applyOp c10state (.update "cam" 9 4)).timestamps "gps" =
          dictGet c10state.timestamps "gps") ∧
    (register_sensor c10state "cam" 2 = .ok (applyOp c10state (.update "cam" 9 4)) →
      dictGet (applyOp c10state (.update "cam" 9 4)).sensorsObjects "gps" =
          dictGet c10state.sensorsObjects "gps" ∧
      dictGet (applyOp c10state (.update "cam" 9 4)).dataBuffers "gps" =
          dictGet c10state.dataBuffers "gps" ∧
      dictGet (applyOp c10state (.update "cam" 9 4)).timestamps "gps" =
          dictGet c10state.timestamps "gps")) :=
  ⟨by decide, c10_frame c10state (applyOp c10state (.update "cam" 9 4)) "cam" "gps" 9 4 2
    (by decide)⟩

end SRunner
